import Mathlib

/-!
Shallow embedding of `qudi/util/datafitting.py`: the fit-configuration data
model (`FitConfiguration`), the observable configuration collection
(`FitConfigurationsModel`), the fit orchestrator (`FitContainer`) and the
result formatting helpers, together with theorems settling the spec claims.

Numbers are modelled as rationals (ℚ).  `lmfit.Parameters` is modelled as an
ordered association list from parameter names to parameter records, matching
its ordered-dict semantics.  Python exceptions are modelled as an error type
with one constructor per raise/assert site of the source, plus a map to the
Python exception class raised there.  The mutex guarding the orchestrator's
last-fit state is modelled by an event trace recording lock acquisition and
release, state reads/writes, signal emissions and the solver call.
-/

namespace Datafitting

/-- A Python float value as it appears in fit results: either a rational
number or the not-a-number sentinel (`np.nan`), which this module uses only
as a marker, never arithmetically. -/
inductive PyFloat where
  | nan : PyFloat
  | val : ℚ → PyFloat
deriving DecidableEq

/-- One `lmfit.Parameter`: whether it may vary, its value, bounds, and the
standard error reported by the solver (absent when not computed). -/
structure Param where
  vary : Bool
  value : ℚ
  min : ℚ
  max : ℚ
  stderr : Option PyFloat
deriving DecidableEq

/-- `lmfit.Parameters`: an ordered mapping from parameter name to parameter,
modelled as an association list in insertion order. -/
abbrev Parameters : Type := List (String × Param)

/-- The parameter names of a parameter set, in order. -/
def Parameters.keys (ps : Parameters) : List String :=
  ps.map Prod.fst

/-- Dictionary lookup `ps[name]`, returning `none` when the key is absent. -/
def Parameters.find (ps : Parameters) (name : String) : Option Param :=
  match ps with
  | [] => none
  | (m, p) :: rest => if m = name then some p else Parameters.find rest name

/-- Dictionary item assignment `ps[name] = p`: replaces the entry in place
when the key exists (keeping its position), otherwise appends it. -/
def Parameters.set (ps : Parameters) (name : String) (p : Param) : Parameters :=
  match ps with
  | [] => [(name, p)]
  | (m, q) :: rest =>
      if m = name then (name, p) :: rest else (m, q) :: Parameters.set rest name p

/-- Every Python exception raised by the source module, one constructor per
raise/assert site. -/
inductive FitError where
  /-- `assert name, 'FitConfiguration name must be non-empty string.'` -/
  | emptyConfigName : FitError
  /-- `assert model in _fit_models, ...` in `FitConfiguration.__init__`. -/
  | unknownModel : String → FitError
  /-- `assert name != 'No Fit', ...` in `FitConfiguration.__init__`. -/
  | reservedConfigName : FitError
  /-- `assert value in self.available_estimators, ...` in the estimator setter. -/
  | unknownEstimator : String → FitError
  /-- `assert not invalid, ...` in the custom_parameters setter. -/
  | invalidCustomParams : FitError
  /-- `assert name not in self.configuration_names, ...` in `add_configuration`. -/
  | duplicateConfigName : String → FitError
  /-- `assert name != 'No Fit', ...` in `add_configuration`. -/
  | reservedConfigNameOnAdd : FitError
  /-- `assert set(dict_repr) == ...` in `FitConfiguration.from_dict`. -/
  | badDictKeys : FitError
  /-- `raise ValueError(f'No fit configuration found with name ...')` in
  `get_configuration_by_name`. -/
  | configNotFound : String → FitError
  /-- `KeyError` from `_fit_models[...]` on an unknown model key. -/
  | modelKeyError : String → FitError
  /-- `KeyError` from `model.estimators[...]` on an unknown estimator key. -/
  | estimatorKeyError : String → FitError
  /-- `IndexError` from `x[0]` on an empty array. -/
  | indexError : FitError
deriving DecidableEq

/-- The Python exception class that each error site raises. -/
def FitError.pythonClass : FitError → String
  | .emptyConfigName => "AssertionError"
  | .unknownModel _ => "AssertionError"
  | .reservedConfigName => "AssertionError"
  | .unknownEstimator _ => "AssertionError"
  | .invalidCustomParams => "AssertionError"
  | .duplicateConfigName _ => "AssertionError"
  | .reservedConfigNameOnAdd => "AssertionError"
  | .badDictKeys => "AssertionError"
  | .configNotFound _ => "ValueError"
  | .modelKeyError _ => "KeyError"
  | .estimatorKeyError _ => "KeyError"
  | .indexError => "IndexError"

/-- Whether an exception would be caught by `except LookupError` in Python:
`LookupError` is the base class of exactly `KeyError` and `IndexError`;
`ValueError` and `AssertionError` are not `LookupError` subclasses. -/
def FitError.isLookupError (e : FitError) : Bool :=
  e.pythonClass = "KeyError" || e.pythonClass = "IndexError" ||
    e.pythonClass = "LookupError"

/-- Modelled from the spec: the §7 error-taxonomy category `ValidationError`
("configuration construction/mutation violates a static contract").  The
source realizes this category as `AssertionError` raised at the validation
assert sites; this predicate classifies the error sites into the category. -/
def FitError.isValidationError : FitError → Bool
  | .emptyConfigName => true
  | .unknownModel _ => true
  | .reservedConfigName => true
  | .unknownEstimator _ => true
  | .invalidCustomParams => true
  | .reservedConfigNameOnAdd => true
  | .badDictKeys => true
  | _ => false

/-- Modelled from the spec: the §7 error-taxonomy category
`DuplicateNameError` ("name collision on add").  The source realizes it as
the `AssertionError` of the duplicate-name assert in `add_configuration`. -/
def FitError.isDuplicateNameError : FitError → Bool
  | .duplicateConfigName _ => true
  | _ => false

/-- Modelled from the spec: the stable string serialization of
`lmfit.Parameters` (`dumps`/`loads`, external library; §6 requires "a string
produced by a stable parameter-serialization format that this core's
`from_dict` can parse back"), represented by its parsed content so that
`loads` is a left inverse of `dumps`. -/
structure SerializedParams where
  content : Parameters
deriving DecidableEq

/-- `lmfit.Parameters.dumps`. -/
def Parameters.dumps (ps : Parameters) : SerializedParams :=
  ⟨ps⟩

/-- `lmfit.Parameters().loads(s)`. -/
def Parameters.loads (s : SerializedParams) : Parameters :=
  s.content

/-- The value stored under the `custom_parameters` key of a configuration's
dict representation: `None`, a serialized string, or a live
`lmfit.Parameters` object. -/
inductive CPVal where
  | null : CPVal
  | str : SerializedParams → CPVal
  | params : Parameters → CPVal
deriving DecidableEq

/-- The dict representation handled by `to_dict`/`from_dict`, with its four
fixed keys `name`, `model`, `estimator`, `custom_parameters`. -/
structure ConfigDict where
  name : String
  model : String
  estimator : Option String
  custom_parameters : CPVal
deriving DecidableEq

/-- A fit model instance as produced by a registry factory: estimator table,
default parameters, fit routine and evaluation routine.  The fit routine
stands for the external solver; the orchestrator treats it as opaque. -/
structure FitModel where
  estimators : List (String × (List ℚ → List ℚ → Parameters))
  makeParams : Parameters
  fit : List ℚ → Parameters → List ℚ → Parameters × List (String × ℚ)
  eval : List (String × ℚ) → List ℚ → List ℚ

/-- The module-level `_fit_models` registry: model name → model factory
(instantiation is pure here, so the factory is the instance itself). -/
abbrev Registry : Type := List (String × FitModel)

/-- Association-list lookup used for the registry and estimator tables
(Python dict subscript, minus the `KeyError`, which call sites add). -/
def assocFind {α : Type} (l : List (String × α)) (key : String) : Option α :=
  match l with
  | [] => none
  | (k, v) :: rest => if k = key then some v else assocFind rest key

/-- An `lmfit.ModelResult`, reduced to the fields this module reads or
writes: the final parameter table (`result.params`), the fitted best values
(`result.best_values`), and the high-resolution curve that `fit_data`
attaches as `result.high_res_best_fit`. -/
structure ModelResult where
  params : Parameters
  bestValues : List (String × ℚ)
  highRes : Option (List ℚ × List ℚ)
deriving DecidableEq

/-- `FitConfiguration`: validated, named binding of model name, optional
estimator name and optional parameter overrides.  The validation itself
lives in `FitConfiguration.construct`. -/
structure FitConfiguration where
  name : String
  model : String
  estimator : Option String
  customParameters : Option Parameters
deriving DecidableEq

/-- `FitConfiguration.__init__`, including the `estimator` and
`custom_parameters` setters it invokes.  Assert order follows the source:
non-empty name, model in registry, reserved name, estimator validity,
custom-parameter key validity.  (`isinstance` asserts are discharged by
typing; `.copy()` on store is the identity under value semantics.) -/
def FitConfiguration.construct (reg : Registry) (name model : String)
    (estimator : Option String) (customParameters : Option Parameters) :
    Except FitError FitConfiguration :=
  if name = "" then .error .emptyConfigName
  else
    match assocFind reg model with
    | none => .error (.unknownModel model)
    | some m =>
        if name = "No Fit" then .error .reservedConfigName
        else
          match estimator with
          | some est =>
              if est ∈ m.estimators.map Prod.fst then
                match customParameters with
                | some ps =>
                    if ps.keys.all (fun k => k ∈ m.makeParams.keys) then
                      .ok ⟨name, model, some est, some ps⟩
                    else .error .invalidCustomParams
                | none => .ok ⟨name, model, some est, none⟩
              else .error (.unknownEstimator est)
          | none =>
              match customParameters with
              | some ps =>
                  if ps.keys.all (fun k => k ∈ m.makeParams.keys) then
                    .ok ⟨name, model, none, some ps⟩
                  else .error .invalidCustomParams
              | none => .ok ⟨name, model, none, none⟩

/-- `FitConfiguration.to_dict`: serializes `custom_parameters` through
`dumps` when present, else stores `None`. -/
def FitConfiguration.to_dict (c : FitConfiguration) : ConfigDict :=
  { name := c.name
    model := c.model
    estimator := c.estimator
    custom_parameters :=
      match c.customParameters with
      | none => .null
      | some ps => .str ps.dumps }

/-- `FitConfiguration.from_dict`: when the `custom_parameters` entry is a
string it is parsed with `loads` and written back into the caller's mapping
(in-place mutation of the argument), then the constructor is called on the
mutated mapping.  Returns the post-call state of the argument dict together
with the construction outcome.  (The exact-key-set assert is discharged by
the typed record.) -/
def FitConfiguration.from_dict (reg : Registry) (d : ConfigDict) :
    ConfigDict × Except FitError FitConfiguration :=
  let d' :=
    match d.custom_parameters with
    | .str s => { d with custom_parameters := .params (Parameters.loads s) }
    | _ => d
  (d', FitConfiguration.construct reg d'.name d'.model d'.estimator
        (match d'.custom_parameters with
         | .params ps => some ps
         | _ => none))

/-- `FitConfigurationsModel`: the ordered collection of fit configurations
(the Qt list-model plumbing is not modelled; the
`sigFitConfigurationsChanged` payloads are returned explicitly by the
mutating operations). -/
structure FitConfigurationsModel where
  fitConfigurations : List FitConfiguration
deriving DecidableEq

/-- The `configuration_names` property: names in collection order. -/
def FitConfigurationsModel.configuration_names (cm : FitConfigurationsModel) :
    List String :=
  cm.fitConfigurations.map FitConfiguration.name

/-- Python `tuple.index` as used on `configuration_names`: index of the first
occurrence, `none` when absent (the `ValueError` it raises is handled at the
two call sites). -/
def namesIndexOf : List String → String → Option Nat
  | [], _ => none
  | m :: rest, n => if m = n then some 0 else (namesIndexOf rest n).map (· + 1)

/-- `FitConfigurationsModel.get_configuration_by_name`: re-raises the
`tuple.index` miss as `ValueError('No fit configuration found ...')`. -/
def FitConfigurationsModel.get_configuration_by_name
    (cm : FitConfigurationsModel) (name : String) :
    Except FitError FitConfiguration :=
  match namesIndexOf cm.configuration_names name with
  | none => .error (.configNotFound name)
  | some i =>
      match cm.fitConfigurations[i]? with
      | some cfg => .ok cfg
      | none => .error .indexError

/-- `FitConfigurationsModel.add_configuration`: duplicate-name assert, then
reserved-name assert, then construction; on success appends at the end and
emits the full ordered name tuple.  Returns (outcome, post-call collection,
emitted `sigFitConfigurationsChanged` payload if any). -/
def FitConfigurationsModel.add_configuration (reg : Registry)
    (cm : FitConfigurationsModel) (name model : String)
    (estimator : Option String) (customParameters : Option Parameters) :
    Except FitError Unit × FitConfigurationsModel × Option (List String) :=
  if name ∈ cm.configuration_names then
    (.error (.duplicateConfigName name), cm, none)
  else if name = "No Fit" then
    (.error .reservedConfigNameOnAdd, cm, none)
  else
    match FitConfiguration.construct reg name model estimator customParameters with
    | .error e => (.error e, cm, none)
    | .ok cfg =>
        let cm' : FitConfigurationsModel := ⟨cm.fitConfigurations ++ [cfg]⟩
        (.ok (), cm', some cm'.configuration_names)

/-- `FitConfigurationsModel.remove_configuration`: a miss of `tuple.index`
is swallowed (`except ValueError: return`); a hit pops exactly that row and
emits the new ordered name tuple.  Returns (post-call collection, emitted
`sigFitConfigurationsChanged` payload if any). -/
def FitConfigurationsModel.remove_configuration (cm : FitConfigurationsModel)
    (name : String) : FitConfigurationsModel × Option (List String) :=
  match namesIndexOf cm.configuration_names name with
  | none => (cm, none)
  | some i =>
      let cm' : FitConfigurationsModel := ⟨cm.fitConfigurations.eraseIdx i⟩
      (cm', some cm'.configuration_names)

/-- `FitContainer` state: the last-fit pair guarded by `self._access_lock`. -/
structure FitContainer where
  lastFitConfig : String
  lastFitResult : Option ModelResult
deriving DecidableEq

/-- Observable events of one `FitContainer` method call: mutex acquisition
and release (`with self._access_lock`), reads/writes of the last-fit pair,
emission of `sigLastFitResultChanged`, and the call into the external solver
(`model.fit`). -/
inductive Event where
  | acquire : Event
  | release : Event
  | readState : Event
  | writeState : Event
  | emitSignal : Event
  | solverCall : Event
deriving DecidableEq

instance {ε α : Type} [DecidableEq ε] [DecidableEq α] : DecidableEq (Except ε α) :=
  fun a b =>
    match a, b with
    | .error e, .error f =>
        match decEq e f with
        | isTrue h => isTrue (h ▸ rfl)
        | isFalse h => isFalse (fun c => h (Except.error.inj c))
    | .ok x, .ok y =>
        match decEq x y with
        | isTrue h => isTrue (h ▸ rfl)
        | isFalse h => isFalse (fun c => h (Except.ok.inj c))
    | .error _, .ok _ => isFalse (fun c => Except.noConfusion c)
    | .ok _, .error _ => isFalse (fun c => Except.noConfusion c)

/-- Complete outcome of one `fit_data` call: returned value (or propagated
exception), post-call container state, emitted `sigLastFitResultChanged`
payloads, and the event trace. -/
structure FitOutcome where
  result : Except FitError (String × Option ModelResult)
  state : FitContainer
  emitted : List (String × Option ModelResult)
  trace : List Event
deriving DecidableEq

/-- `np.linspace(a, b, n)`: `n` evenly spaced samples from `a` to `b`
inclusive (`a + i*(b-a)/(n-1)` for `i < n`; for `n = 1` the division by zero
vanishes against `i = 0` and the sample is `a`, as in numpy). -/
def linspace (a b : ℚ) (n : ℕ) : List ℚ :=
  (List.range n).map (fun (i : ℕ) => a + (i : ℚ) * (b - a) / ((n : ℚ) - 1))

/-- Lines 337–339 of `fit_data`: `for name, param in add_parameters.items():
parameters[name] = param` — each custom-parameter entry is assigned over the
same-named entry of the initial parameter set (no-op table when the
configuration holds no overrides). -/
def apply_custom_parameters (parameters : Parameters) :
    Option Parameters → Parameters
  | none => parameters
  | some add => add.foldl (fun ps np => Parameters.set ps np.1 np.2) parameters

/-- Lines 331–339 of `fit_data`: initial parameters from the model defaults
or the configured estimator applied to `(data, x)`, then each entry of
`custom_parameters` assigned over the same-named entry. -/
def initial_parameters (model : FitModel) (config : FitConfiguration)
    (x data : List ℚ) : Except FitError Parameters :=
  match config.estimator with
  | none => .ok (apply_custom_parameters model.makeParams config.customParameters)
  | some est =>
      match assocFind model.estimators est with
      | none => .error (.estimatorKeyError est)
      | some f => .ok (apply_custom_parameters (f data x) config.customParameters)

/-- `FitContainer.fit_data(fit_config, x, data)`.  The whole body runs under
`with self._access_lock` (first/last trace events).  Branches in source
order: falsy config name → `('', None)` with no state change; `'No Fit'` →
clear the pair, emit, return; otherwise resolve the configuration
(`ValueError` propagates), instantiate the model (`KeyError` on a stale
model name), build initial parameters, call the solver, attach the
high-resolution curve (`x[0]` raises `IndexError` on empty input — note the
solver has already run at that point), store the pair, emit, return.  An
exception leaves the state unchanged and the lock is released on unwind. -/
def FitContainer.fit_data (reg : Registry) (cm : FitConfigurationsModel)
    (c : FitContainer) (fitConfig : String) (x data : List ℚ) : FitOutcome :=
  if fitConfig = "" then
    { result := .ok ("", none), state := c, emitted := []
      trace := [.acquire, .release] }
  else if fitConfig = "No Fit" then
    { result := .ok ("No Fit", none)
      state := { lastFitConfig := "No Fit", lastFitResult := none }
      emitted := [("No Fit", none)]
      trace := [.acquire, .writeState, .emitSignal, .release] }
  else
    match cm.get_configuration_by_name fitConfig with
    | .error e =>
        { result := .error e, state := c, emitted := []
          trace := [.acquire, .release] }
    | .ok config =>
        match assocFind reg config.model with
        | none =>
            { result := .error (.modelKeyError config.model), state := c
              emitted := [], trace := [.acquire, .release] }
        | some model =>
            match initial_parameters model config x data with
            | .error e =>
                { result := .error e, state := c, emitted := []
                  trace := [.acquire, .release] }
            | .ok parameters =>
                let fitted := model.fit data parameters x
                let result : ModelResult :=
                  { params := fitted.1, bestValues := fitted.2, highRes := none }
                match x with
                | [] =>
                    { result := .error .indexError, state := c, emitted := []
                      trace := [.acquire, .solverCall, .release] }
                | x0 :: xtail =>
                    let highResX :=
                      linspace x0 ((x0 :: xtail).getLast (List.cons_ne_nil x0 xtail))
                        (x.length * 10)
                    let result' : ModelResult :=
                      { result with
                          highRes :=
                            some (highResX, model.eval result.bestValues highResX) }
                    { result := .ok (fitConfig, some result')
                      state := { lastFitConfig := fitConfig
                                 lastFitResult := some result' }
                      emitted := [(fitConfig, some result')]
                      trace := [.acquire, .solverCall, .writeState, .emitSignal,
                                .release] }

/-- The `last_fit` property: reads the pair under the lock.  Returns the
read value and the event trace of the access. -/
def FitContainer.last_fit (c : FitContainer) :
    (String × Option ModelResult) × List Event :=
  ((c.lastFitConfig, c.lastFitResult), [.acquire, .readState, .release])

/-- Lock-depth check: `true` iff every solver call in the trace happens
while the lock is NOT held (depth zero).  The claimed lock discipline. -/
def solverLockFree : ℕ → List Event → Bool
  | _, [] => true
  | d, .acquire :: ts => solverLockFree (d + 1) ts
  | d, .release :: ts => solverLockFree (d - 1) ts
  | d, .solverCall :: ts => (d == 0) && solverLockFree d ts
  | d, _ :: ts => solverLockFree d ts

/-- Lock-depth check: `true` iff every solver call in the trace happens
while the lock IS held (depth at least one).  The actual lock discipline. -/
def solverUnderLock : ℕ → List Event → Bool
  | _, [] => true
  | d, .acquire :: ts => solverUnderLock (d + 1) ts
  | d, .release :: ts => solverUnderLock (d - 1) ts
  | d, .solverCall :: ts => (1 ≤ d) && solverUnderLock d ts
  | d, _ :: ts => solverUnderLock d ts

/-- One row of the table handed to the output formatter. -/
structure FormatEntry where
  value : ℚ
  error : Option PyFloat
  unit : String
deriving DecidableEq

/-- Lines 361–362 of `formatted_result`: the reported error of one
parameter.  `stderr = param.stderr if param.vary else None`, then
`stderr = np.nan if param.vary and stderr is None else stderr`. -/
def reported_error (p : Param) : Option PyFloat :=
  let stderr := if p.vary then p.stderr else none
  if p.vary && stderr.isNone then some .nan else stderr

/-- The `parameters_to_format` table built by `formatted_result`: one entry
per parameter with its value, reported error, and unit (default `""`). -/
def parameters_to_format (params : Parameters)
    (parametersUnits : List (String × String)) : List (String × FormatEntry) :=
  params.map (fun np =>
    (np.1, { value := np.2.value
             error := reported_error np.2
             unit := (assocFind parametersUnits np.1).getD "" }))

/-- Modelled from the spec: `qudi.util.units.create_formatted_output`
(repository code outside the provided sources) "renders a unit-aware
tabular/text summary" of the given parameter table. -/
def create_formatted_output (entries : List (String × FormatEntry)) : String :=
  String.intercalate "\n"
    (entries.map (fun e => e.1 ++ " (" ++ e.2.unit ++ ")"))

/-- `FitContainer.formatted_result`: empty string on `None`, else the
rendered summary of the per-parameter table. -/
def formatted_result (fitResult : Option ModelResult)
    (parametersUnits : List (String × String)) : String :=
  match fitResult with
  | none => ""
  | some r => create_formatted_output (parameters_to_format r.params parametersUnits)

/-! ### Helper lemmas -/

theorem namesIndexOf_eq_none {l : List String} {n : String} (h : n ∉ l) :
    namesIndexOf l n = none := by
  induction l with
  | nil => rfl
  | cons m rest ih =>
      simp only [List.mem_cons, not_or] at h
      simp [namesIndexOf, Ne.symm h.1, ih h.2]

theorem get_configuration_by_name_absent {cm : FitConfigurationsModel}
    {name : String} (h : name ∉ cm.configuration_names) :
    cm.get_configuration_by_name name = .error (.configNotFound name) := by
  simp [FitConfigurationsModel.get_configuration_by_name, namesIndexOf_eq_none h]

theorem linspace_length (a b : ℚ) (n : ℕ) : (linspace a b n).length = n := by
  simp [linspace]

theorem linspace_getElem (a b : ℚ) (n : ℕ) (i : ℕ) (h : i < n) :
    (linspace a b n)[i]? = some (a + (i : ℚ) * (b - a) / ((n : ℚ) - 1)) := by
  simp [linspace, List.getElem?_map, List.getElem?_range, h]

theorem linspace_getElem_oob (a b : ℚ) (n : ℕ) (i : ℕ) (h : ¬ i < n) :
    (linspace a b n)[i]? = none := by
  rw [List.getElem?_eq_none]
  simpa [linspace_length] using Nat.le_of_not_lt h

theorem linspace_first (a b : ℚ) (n : ℕ) (h : 0 < n) :
    (linspace a b n)[0]? = some a := by
  rw [linspace_getElem a b n 0 h]
  simp

theorem linspace_last (a b : ℚ) (n : ℕ) (h : 2 ≤ n) :
    (linspace a b n).getLast? = some b := by
  obtain ⟨m, rfl⟩ : ∃ m, n = m + 1 := ⟨n - 1, by omega⟩
  rw [linspace, List.range_succ, List.map_append, List.map_cons, List.map_nil]
  rw [List.getLast?_concat]
  have hm : ((m : ℚ) + 1) - 1 ≠ 0 := by
    have : (1 : ℚ) ≤ (m : ℚ) := by exact_mod_cast Nat.one_le_iff_ne_zero.mpr (by omega)
    intro hc
    simp at hc
    omega
  have : (m : ℚ) * (b - a) / (((m : ℚ) + 1) - 1) = b - a := by
    rw [show ((m : ℚ) + 1) - 1 = (m : ℚ) by ring]
    have hm0 : (m : ℚ) ≠ 0 := by
      intro hc
      exact hm (by rw [hc]; ring)
    exact mul_div_cancel_left₀ _ hm0
  push_cast
  rw [this]
  ring_nf

theorem Parameters.find_set_self (ps : Parameters) (n : String) (p : Param) :
    (ps.set n p).find n = some p := by
  induction ps with
  | nil => simp [Parameters.set, Parameters.find]
  | cons hd rest ih =>
      by_cases h : hd.1 = n
      · simp [Parameters.set, h, Parameters.find]
      · simp [Parameters.set, h, Parameters.find, ih]

theorem Parameters.find_set_ne (ps : Parameters) (n m : String) (p : Param)
    (h : n ≠ m) : (ps.set n p).find m = ps.find m := by
  induction ps with
  | nil => simp [Parameters.set, Parameters.find, h]
  | cons hd rest ih =>
      by_cases hh : hd.1 = n
      · simp [Parameters.set, hh, Parameters.find, h]
      · simp [Parameters.set, hh, Parameters.find, ih]

theorem apply_custom_find_not_mem (ps : Parameters) (base : Parameters)
    {n : String} (h : n ∉ ps.keys) :
    (ps.foldl (fun acc np => Parameters.set acc np.1 np.2) base).find n =
      base.find n := by
  induction ps generalizing base with
  | nil => rfl
  | cons hd rest ih =>
      simp only [Parameters.keys, List.map_cons, List.mem_cons, not_or] at h
      rw [List.foldl_cons]
      rw [ih (base.set hd.1 hd.2) (by simpa [Parameters.keys] using h.2)]
      exact Parameters.find_set_ne base hd.1 n hd.2 (fun hc => h.1 hc.symm)

theorem apply_custom_find_mem (ps : Parameters) (base : Parameters)
    {n : String} {p : Param} (hmem : (n, p) ∈ ps) (hnd : ps.keys.Nodup) :
    (ps.foldl (fun acc np => Parameters.set acc np.1 np.2) base).find n =
      some p := by
  induction ps generalizing base with
  | nil => cases hmem
  | cons hd rest ih =>
      simp only [Parameters.keys, List.map_cons, List.nodup_cons] at hnd
      rw [List.foldl_cons]
      rcases List.mem_cons.mp hmem with heq | htail
      · subst heq
        rw [apply_custom_find_not_mem rest _ (by simpa [Parameters.keys] using hnd.1)]
        exact Parameters.find_set_self base n p
      · exact ih _ htail (by simpa [Parameters.keys] using hnd.2)

/-! ### Concrete fixtures for witnesses and counterexamples

A small linear-model registry with two registered fit configurations,
mirroring the spec's end-to-end example (`"L1"` bound to a linear model). -/

def sampleParam : Param :=
  { vary := true, value := 1, min := 0, max := 10, stderr := none }

def sampleParam2 : Param :=
  { vary := true, value := 0, min := -5, max := 5, stderr := some (.val 1) }

def sampleEstimator : List ℚ → List ℚ → Parameters :=
  fun _data _x => [("slope", sampleParam2), ("offset", sampleParam)]

def sampleModel : FitModel :=
  { estimators := [("default", sampleEstimator)]
    makeParams := [("slope", sampleParam), ("offset", sampleParam2)]
    fit := fun _data ps _x => (ps, [("slope", 2), ("offset", 0)])
    eval := fun _bv xs => xs }

def sampleRegistry : Registry := [("LinearModel", sampleModel)]

def sampleConfig : FitConfiguration :=
  { name := "L1", model := "LinearModel", estimator := none, customParameters := none }

def sampleConfig2 : FitConfiguration :=
  { name := "L2", model := "LinearModel", estimator := some "default"
    customParameters := some [("slope", sampleParam2)] }

def sampleConfigsModel : FitConfigurationsModel := ⟨[sampleConfig, sampleConfig2]⟩

def sampleContainer : FitContainer := { lastFitConfig := "No Fit", lastFitResult := none }

def sampleX : List ℚ := [0, 1, 2, 3]

def sampleY : List ℚ := [0, 2, 4, 6]

def sampleOutcome : FitOutcome :=
  FitContainer.fit_data sampleRegistry sampleConfigsModel sampleContainer "L1" sampleX sampleY

def sampleResult : ModelResult :=
  (sampleOutcome.state.lastFitResult).getD ⟨[], [], none⟩

/-! ### Claims -/

/-- C1 (amended): for every configuration name that is not empty, not
`"No Fit"`, and not present in the configuration set, `fit_data` fails with
`ValueError` (raised by `get_configuration_by_name`), which is NOT a
`LookupError` subclass in Python, and the last-fit pair, the emitted
signals, and the container state are unchanged by the failed call. -/
theorem fit_unknown_name_fails_value_error (reg : Registry)
    (cm : FitConfigurationsModel) (c : FitContainer) (name : String)
    (x data : List ℚ) (h1 : name ≠ "") (h2 : name ≠ "No Fit")
    (h3 : name ∉ cm.configuration_names) :
    cm.get_configuration_by_name name = .error (.configNotFound name) ∧
    (FitContainer.fit_data reg cm c name x data).result =
      .error (.configNotFound name) ∧
    (FitContainer.fit_data reg cm c name x data).state = c ∧
    (FitContainer.fit_data reg cm c name x data).emitted = [] ∧
    FitError.pythonClass (.configNotFound name) = "ValueError" ∧
    FitError.isLookupError (.configNotFound name) = false := by
  have hg := get_configuration_by_name_absent h3
  refine ⟨hg, ?_, ?_, ?_, rfl, rfl⟩ <;>
    simp [FitContainer.fit_data, h1, h2, hg]

/-- C1 witness: the amended theorem applied at the concrete absent name
`"L9"` on the sample collection. -/
theorem fit_unknown_name_fails_value_error_witness :
    FitConfigurationsModel.get_configuration_by_name sampleConfigsModel "L9" =
      .error (.configNotFound "L9") ∧
    (FitContainer.fit_data sampleRegistry sampleConfigsModel sampleContainer
      "L9" sampleX sampleY).result = .error (.configNotFound "L9") ∧
    (FitContainer.fit_data sampleRegistry sampleConfigsModel sampleContainer
      "L9" sampleX sampleY).state = sampleContainer ∧
    (FitContainer.fit_data sampleRegistry sampleConfigsModel sampleContainer
      "L9" sampleX sampleY).emitted = [] ∧
    FitError.pythonClass (.configNotFound "L9") = "ValueError" ∧
    FitError.isLookupError (.configNotFound "L9") = false :=
  fit_unknown_name_fails_value_error sampleRegistry sampleConfigsModel
    sampleContainer "L9" sampleX sampleY (by decide) (by decide) (by decide)

/-- C1 counterexample: at the concrete absent name `"L9"`, the failed
`fit_data` call (and `get_configuration_by_name`) raises `ValueError`, and
`ValueError` is not caught by `except LookupError` — refuting the claim
that the failure is a `LookupError`. -/
theorem fit_unknown_name_not_lookup_error :
    (FitContainer.fit_data sampleRegistry sampleConfigsModel sampleContainer
      "L9" sampleX sampleY).result = .error (.configNotFound "L9") ∧
    FitConfigurationsModel.get_configuration_by_name sampleConfigsModel "L9" =
      .error (.configNotFound "L9") ∧
    FitError.pythonClass (.configNotFound "L9") = "ValueError" ∧
    FitError.isLookupError (.configNotFound "L9") = false :=
  ⟨rfl, rfl, rfl, rfl⟩

/-- C2 (amended): `fit_data` holds the shared-state lock for its whole
duration — the trace starts with acquisition and ends with release and
every solver call happens while the lock is held (so a concurrent
`last_fit` reader is blocked until the fit completes, rather than running
lock-free as claimed); the `last_fit` accessor reads the pair as one unit
under the same lock. -/
theorem fit_data_lock_discipline (reg : Registry) (cm : FitConfigurationsModel)
    (c : FitContainer) (fitConfig : String) (x data : List ℚ) :
    (FitContainer.fit_data reg cm c fitConfig x data).trace.head? =
      some .acquire ∧
    (FitContainer.fit_data reg cm c fitConfig x data).trace.getLast? =
      some .release ∧
    solverUnderLock 0 (FitContainer.fit_data reg cm c fitConfig x data).trace =
      true ∧
    (FitContainer.last_fit c).2 = [.acquire, .readState, .release] ∧
    (FitContainer.last_fit c).1 = (c.lastFitConfig, c.lastFitResult) := by
  unfold FitContainer.fit_data
  repeat' split
  all_goals exact ⟨rfl, rfl, rfl, rfl, rfl⟩

/-- C2 counterexample: a concrete successful fit whose trace shows the
solver call strictly between lock acquisition and release — refuting the
claim that the solver call runs lock-free (lock never held across it). -/
theorem fit_data_solver_not_lock_free :
    (FitContainer.fit_data sampleRegistry sampleConfigsModel sampleContainer
      "L1" sampleX sampleY).trace =
      [.acquire, .solverCall, .writeState, .emitSignal, .release] ∧
    solverLockFree 0 (FitContainer.fit_data sampleRegistry sampleConfigsModel
      sampleContainer "L1" sampleX sampleY).trace = false :=
  ⟨rfl, rfl⟩

/-- C3: for every prior orchestrator state and every x, y, calling
`fit_data("No Fit", x, y)` sets the last-fit pair to `("No Fit", None)`,
emits `sigLastFitResultChanged` with exactly that pair, and returns it. -/
theorem fit_data_no_fit_clears (reg : Registry) (cm : FitConfigurationsModel)
    (c : FitContainer) (x data : List ℚ) :
    (FitContainer.fit_data reg cm c "No Fit" x data).state =
      { lastFitConfig := "No Fit", lastFitResult := none } ∧
    (FitContainer.fit_data reg cm c "No Fit" x data).emitted =
      [("No Fit", none)] ∧
    (FitContainer.fit_data reg cm c "No Fit" x data).result =
      .ok ("No Fit", none) :=
  ⟨rfl, rfl, rfl⟩

/-- C4: for every successful fit, the high-resolution curve attached to the
stored result has exactly 10 times as many sample points as `x`, its
x-samples are evenly spaced from `x[0]` to `x[-1]` inclusive
(`x0 + i*(xN-x0)/(n-1)`), and its y-values are the model evaluated at the
fitted best values on those samples. -/
theorem fit_data_high_res_curve (reg : Registry) (cm : FitConfigurationsModel)
    (c : FitContainer) (name : String) (x data : List ℚ) (r : ModelResult)
    (cfg : FitConfiguration) (m : FitModel)
    (hcfg : cm.get_configuration_by_name name = .ok cfg)
    (hm : assocFind reg cfg.model = some m)
    (hres : (FitContainer.fit_data reg cm c name x data).result =
      .ok (name, some r)) :
    ∃ x0 xN, x[0]? = some x0 ∧ x.getLast? = some xN ∧
      r.highRes = some (linspace x0 xN (x.length * 10),
        m.eval r.bestValues (linspace x0 xN (x.length * 10))) ∧
      (linspace x0 xN (x.length * 10)).length = x.length * 10 ∧
      (linspace x0 xN (x.length * 10))[0]? = some x0 ∧
      (linspace x0 xN (x.length * 10)).getLast? = some xN ∧
      (∀ i, i < x.length * 10 →
        (linspace x0 xN (x.length * 10))[i]? =
          some (x0 + (i : ℚ) * (xN - x0) /
            (((x.length * 10 : ℕ) : ℚ) - 1))) := by
  by_cases h1 : name = ""
  · subst h1
    rw [FitContainer.fit_data] at hres
    simp at hres
  by_cases h2 : name = "No Fit"
  · subst h2
    rw [FitContainer.fit_data] at hres
    simp [h1] at hres
  rw [FitContainer.fit_data] at hres
  rw [if_neg h1, if_neg h2] at hres
  simp only [hcfg] at hres
  simp only [hm] at hres
  cases hip : initial_parameters m cfg x data with
  | error e =>
      simp only [hip] at hres
      exact Except.noConfusion hres
  | ok parameters =>
      simp only [hip] at hres
      cases x with
      | nil => simp at hres
      | cons x0 xtail =>
          simp only [Except.ok.injEq, Prod.mk.injEq, Option.some.injEq] at hres
          obtain ⟨-, hr⟩ := hres
          subst hr
          refine ⟨x0, (x0 :: xtail).getLast (List.cons_ne_nil x0 xtail),
            by simp, (List.getLast?_eq_getLast _ _), rfl,
            linspace_length _ _ _,
            linspace_first _ _ _ (by simp only [List.length_cons]; omega),
            linspace_last _ _ _ (by simp only [List.length_cons]; omega),
            fun i hi => ?_⟩
          exact linspace_getElem _ _ _ i hi

/-- C4 witness: the theorem applied to the concrete linear fit
`fit_data("L1", [0,1,2,3], [0,2,4,6])`, whose curve has `4*10 = 40` points
spanning `[0, 3]`. -/
theorem fit_data_high_res_curve_witness :
    ∃ x0 xN, sampleX[0]? = some x0 ∧ sampleX.getLast? = some xN ∧
      sampleResult.highRes = some (linspace x0 xN (sampleX.length * 10),
        sampleModel.eval sampleResult.bestValues
          (linspace x0 xN (sampleX.length * 10))) ∧
      (linspace x0 xN (sampleX.length * 10)).length = sampleX.length * 10 ∧
      (linspace x0 xN (sampleX.length * 10))[0]? = some x0 ∧
      (linspace x0 xN (sampleX.length * 10)).getLast? = some xN ∧
      (∀ i, i < sampleX.length * 10 →
        (linspace x0 xN (sampleX.length * 10))[i]? =
          some (x0 + (i : ℚ) * (xN - x0) /
            (((sampleX.length * 10 : ℕ) : ℚ) - 1))) :=
  fit_data_high_res_curve sampleRegistry sampleConfigsModel sampleContainer
    "L1" sampleX sampleY sampleResult sampleConfig sampleModel rfl rfl rfl

/-- A `FitConfiguration` value satisfying every invariant the constructor
enforces against the given registry: non-empty non-reserved name, known
model, known estimator (when set), override keys drawn from the model's
default parameter names (when set). -/
def FitConfiguration.isValidFor (reg : Registry) (c : FitConfiguration) : Bool :=
  c.name != "" && c.name != "No Fit" &&
    match assocFind reg c.model with
    | none => false
    | some m =>
        (match c.estimator with
         | none => true
         | some e => (m.estimators.map Prod.fst).contains e) &&
        (match c.customParameters with
         | none => true
         | some ps => ps.keys.all (fun k => (m.makeParams.keys).contains k))

theorem construct_valid (reg : Registry) (name model : String)
    (estimator : Option String) (customParameters : Option Parameters)
    (m : FitModel) (hn1 : name ≠ "") (hn2 : name ≠ "No Fit")
    (hm : assocFind reg model = some m)
    (hest : ∀ e, estimator = some e → e ∈ m.estimators.map Prod.fst)
    (hcp : ∀ ps, customParameters = some ps →
      ps.keys.all (fun k => k ∈ m.makeParams.keys) = true) :
    FitConfiguration.construct reg name model estimator customParameters =
      .ok ⟨name, model, estimator, customParameters⟩ := by
  unfold FitConfiguration.construct
  rw [if_neg hn1]
  simp only [hm]
  rw [if_neg hn2]
  cases estimator with
  | none =>
      cases customParameters with
      | none => rfl
      | some ps => simp [hcp ps rfl]
  | some e =>
      dsimp only
      rw [if_pos (hest e rfl)]
      cases customParameters with
      | none => rfl
      | some ps => simp [hcp ps rfl]

/-- C5: for every configuration valid against the registry,
`from_dict(to_dict(c))` succeeds and yields a configuration equal to `c`
(same name, model, estimator and override set); `custom_parameters`
round-trips null as null and a non-null table through its string
serialization. -/
theorem from_dict_to_dict_round_trip (reg : Registry) (c : FitConfiguration)
    (h : c.isValidFor reg = true) :
    (FitConfiguration.from_dict reg c.to_dict).2 = .ok c ∧
    (c.customParameters = none → c.to_dict.custom_parameters = .null) ∧
    (∀ ps, c.customParameters = some ps →
      c.to_dict.custom_parameters = .str ps.dumps ∧
      Parameters.loads ps.dumps = ps) := by
  obtain ⟨name, model, estimator, customParameters⟩ := c
  unfold FitConfiguration.isValidFor at h
  simp only [Bool.and_eq_true, bne_iff_ne, ne_eq] at h
  obtain ⟨⟨hn1, hn2⟩, hrest⟩ := h
  cases hm : assocFind reg model with
  | none => rw [hm] at hrest; cases hrest
  | some m =>
      rw [hm] at hrest
      simp only [Bool.and_eq_true] at hrest
      obtain ⟨hest, hcp⟩ := hrest
      have hest' : ∀ e, estimator = some e → e ∈ m.estimators.map Prod.fst := by
        intro e he
        rw [he] at hest
        simpa using hest
      have hcp' : ∀ ps, customParameters = some ps →
          ps.keys.all (fun k => k ∈ m.makeParams.keys) = true := by
        intro ps hps
        rw [hps] at hcp
        simpa using hcp
      refine ⟨?_, ?_, ?_⟩
      · cases hcpv : customParameters with
        | none =>
            simp only [FitConfiguration.to_dict, FitConfiguration.from_dict]
            exact construct_valid reg name model estimator none m hn1 hn2 hm
              hest' (by intro ps hps; cases hps)
        | some ps =>
            simp only [FitConfiguration.to_dict, FitConfiguration.from_dict,
              Parameters.dumps, Parameters.loads]
            rw [hcpv] at hcp'
            exact construct_valid reg name model estimator (some ps) m hn1 hn2
              hm hest' (by intro qs hqs; cases hqs; exact hcp' ps rfl)
      · intro hnone
        replace hnone : customParameters = none := hnone
        simp [FitConfiguration.to_dict, hnone]
      · intro ps hps
        replace hps : customParameters = some ps := hps
        simp [FitConfiguration.to_dict, hps, Parameters.loads, Parameters.dumps]

/-- C5 witness: the round trip at the concrete configuration `"L2"`
(estimator `"default"` and a non-null `custom_parameters` override). -/
theorem from_dict_to_dict_round_trip_witness :
    (FitConfiguration.from_dict sampleRegistry sampleConfig2.to_dict).2 =
      .ok sampleConfig2 ∧
    (sampleConfig2.customParameters = none →
      sampleConfig2.to_dict.custom_parameters = .null) ∧
    (∀ ps, sampleConfig2.customParameters = some ps →
      sampleConfig2.to_dict.custom_parameters = .str ps.dumps ∧
      Parameters.loads ps.dumps = ps) :=
  from_dict_to_dict_round_trip sampleRegistry sampleConfig2 (by decide)

/-- C6: on a known configuration the initial parameter set is the model's
`make_params()` defaults when no estimator is configured, and the
configured estimator applied to `(data, x)` otherwise; every
`custom_parameters` entry then replaces the same-named entry of the initial
set (the override wins, entry by entry, by parameter name) before
`model.fit(data, parameters, x)` is executed. -/
theorem initial_parameters_spec (model : FitModel) (config : FitConfiguration)
    (x data : List ℚ) :
    (config.estimator = none →
      initial_parameters model config x data =
        .ok (apply_custom_parameters model.makeParams config.customParameters)) ∧
    (∀ e f, config.estimator = some e →
      assocFind model.estimators e = some f →
      initial_parameters model config x data =
        .ok (apply_custom_parameters (f data x) config.customParameters)) ∧
    (∀ (base ps : Parameters), ps.keys.Nodup →
      (∀ n p, (n, p) ∈ ps →
        (apply_custom_parameters base (some ps)).find n = some p) ∧
      (∀ n, n ∉ ps.keys →
        (apply_custom_parameters base (some ps)).find n = base.find n)) ∧
    (∀ (reg : Registry) (cm : FitConfigurationsModel) (c : FitContainer)
        (name : String) (r : ModelResult),
      cm.get_configuration_by_name name = .ok config →
      assocFind reg config.model = some model →
      (FitContainer.fit_data reg cm c name x data).result = .ok (name, some r) →
      ∃ ps, initial_parameters model config x data = .ok ps ∧
        r.params = (model.fit data ps x).1 ∧
        r.bestValues = (model.fit data ps x).2) := by
  refine ⟨?_, ?_, ?_, ?_⟩
  · intro h
    simp [initial_parameters, h]
  · intro e f he hf
    simp [initial_parameters, he, hf]
  · intro base ps hnd
    exact ⟨fun n p hmem => apply_custom_find_mem ps base hmem hnd,
           fun n hn => apply_custom_find_not_mem ps base hn⟩
  · intro reg cm c name r hcfg hm hres
    by_cases h1 : name = ""
    · subst h1
      rw [FitContainer.fit_data] at hres
      simp at hres
    by_cases h2 : name = "No Fit"
    · subst h2
      rw [FitContainer.fit_data] at hres
      simp [h1] at hres
    rw [FitContainer.fit_data] at hres
    rw [if_neg h1, if_neg h2] at hres
    simp only [hcfg] at hres
    simp only [hm] at hres
    cases hip : initial_parameters model config x data with
    | error e =>
        simp only [hip] at hres
        exact Except.noConfusion hres
    | ok parameters =>
        simp only [hip] at hres
        cases x with
        | nil => simp at hres
        | cons x0 xtail =>
            simp only [Except.ok.injEq, Prod.mk.injEq, Option.some.injEq] at hres
            obtain ⟨-, hr⟩ := hres
            subst hr
            exact ⟨parameters, rfl, rfl, rfl⟩

/-- C6 witness: the theorem applied at the sample configurations — default
parameters for `"L1"` (no estimator), the `"default"` estimator for `"L2"`,
the override winning on `"slope"` and leaving `"offset"` untouched, and the
concrete successful fit. -/
theorem initial_parameters_spec_witness :
    initial_parameters sampleModel sampleConfig sampleX sampleY =
      .ok (apply_custom_parameters sampleModel.makeParams
        sampleConfig.customParameters) ∧
    initial_parameters sampleModel sampleConfig2 sampleX sampleY =
      .ok (apply_custom_parameters (sampleEstimator sampleY sampleX)
        sampleConfig2.customParameters) ∧
    (apply_custom_parameters sampleModel.makeParams
      (some [("slope", sampleParam2)])).find "slope" = some sampleParam2 ∧
    (apply_custom_parameters sampleModel.makeParams
      (some [("slope", sampleParam2)])).find "offset" =
        sampleModel.makeParams.find "offset" ∧
    (∃ ps, initial_parameters sampleModel sampleConfig sampleX sampleY =
        .ok ps ∧
      sampleResult.params = (sampleModel.fit sampleY ps sampleX).1 ∧
      sampleResult.bestValues = (sampleModel.fit sampleY ps sampleX).2) :=
  ⟨(initial_parameters_spec sampleModel sampleConfig sampleX sampleY).1 rfl,
   (initial_parameters_spec sampleModel sampleConfig2 sampleX sampleY).2.1
     "default" sampleEstimator rfl rfl,
   ((initial_parameters_spec sampleModel sampleConfig sampleX sampleY).2.2.1
     sampleModel.makeParams [("slope", sampleParam2)] (by decide)).1
     "slope" sampleParam2 (List.mem_singleton.mpr rfl),
   ((initial_parameters_spec sampleModel sampleConfig sampleX sampleY).2.2.1
     sampleModel.makeParams [("slope", sampleParam2)] (by decide)).2
     "offset" (by decide),
   (initial_parameters_spec sampleModel sampleConfig sampleX sampleY).2.2.2
     sampleRegistry sampleConfigsModel sampleContainer "L1" sampleResult
     rfl rfl rfl⟩

theorem namesIndexOf_mem {l : List String} {n : String} (h : n ∈ l) :
    ∃ i, namesIndexOf l n = some i := by
  induction l with
  | nil => cases h
  | cons m rest ih =>
      by_cases hm : m = n
      · exact ⟨0, by simp [namesIndexOf, hm]⟩
      · obtain ⟨i, hi⟩ := ih (by
          rcases List.mem_cons.mp h with h' | h'
          · exact absurd h'.symm hm
          · exact h')
        exact ⟨i + 1, by simp [namesIndexOf, hm, hi]⟩

theorem remove_present_aux (l : List FitConfiguration) (name : String) :
    name ∈ (FitConfigurationsModel.mk l).configuration_names →
    (FitConfigurationsModel.mk l).configuration_names.Nodup →
    ∃ cm', (FitConfigurationsModel.mk l).remove_configuration name =
        (cm', some cm'.configuration_names) ∧
      cm'.configuration_names =
        (FitConfigurationsModel.mk l).configuration_names.erase name ∧
      name ∉ cm'.configuration_names ∧
      cm'.configuration_names.Sublist
        (FitConfigurationsModel.mk l).configuration_names ∧
      cm'.fitConfigurations.length + 1 = l.length := by
  induction l with
  | nil =>
      intro hmem _
      simp [FitConfigurationsModel.configuration_names] at hmem
  | cons cfg rest ih =>
      intro hmem hnd
      simp only [FitConfigurationsModel.configuration_names, List.map_cons,
        List.nodup_cons] at hnd
      by_cases hh : cfg.name = name
      · subst hh
        refine ⟨⟨rest⟩, ?_, ?_, ?_, ?_, ?_⟩
        · simp [FitConfigurationsModel.remove_configuration,
            FitConfigurationsModel.configuration_names, namesIndexOf]
        · simp [FitConfigurationsModel.configuration_names]
        · simpa [FitConfigurationsModel.configuration_names] using hnd.1
        · simp only [FitConfigurationsModel.configuration_names, List.map_cons]
          exact List.sublist_cons_self _ _
        · simp
      · have hmem' : name ∈ (FitConfigurationsModel.mk rest).configuration_names := by
          simp only [FitConfigurationsModel.configuration_names, List.map_cons,
            List.mem_cons] at hmem
          rcases hmem with h' | h'
          · exact absurd h'.symm hh
          · simpa [FitConfigurationsModel.configuration_names] using h'
        obtain ⟨cm', h1, h2, h3, h4, h5⟩ := ih hmem'
          (by simpa [FitConfigurationsModel.configuration_names] using hnd.2)
        obtain ⟨i, hidx⟩ := namesIndexOf_mem hmem'
        have hcm' : cm' = ⟨rest.eraseIdx i⟩ := by
          rw [FitConfigurationsModel.remove_configuration] at h1
          rw [hidx] at h1
          exact (Prod.mk.injEq _ _ _ _ ▸ h1).1.symm
        subst hcm'
        refine ⟨⟨cfg :: rest.eraseIdx i⟩, ?_, ?_, ?_, ?_, ?_⟩
        · rw [FitConfigurationsModel.remove_configuration]
          have : namesIndexOf
              (FitConfigurationsModel.mk (cfg :: rest)).configuration_names
              name = some (i + 1) := by
            simp only [FitConfigurationsModel.configuration_names,
              List.map_cons, namesIndexOf, hh, if_false]
            rw [show (List.map FitConfiguration.name rest) =
              (FitConfigurationsModel.mk rest).configuration_names from rfl]
            rw [hidx]
            rfl
          rw [this]
          rfl
        · simp only [FitConfigurationsModel.configuration_names,
            List.map_cons] at h2 ⊢
          rw [List.erase_cons]
          rw [if_neg (by simpa using hh)]
          rw [h2]
        · simp only [FitConfigurationsModel.configuration_names,
            List.map_cons, List.mem_cons, not_or]
          exact ⟨fun hc => hh hc.symm,
            by simpa [FitConfigurationsModel.configuration_names] using h3⟩
        · simp only [FitConfigurationsModel.configuration_names,
            List.map_cons]
          exact List.Sublist.cons₂ _
            (by simpa [FitConfigurationsModel.configuration_names] using h4)
        · simpa using h5

/-- C7: `remove_configuration` on an absent name is a no-op returning no
error and emitting no notification; on a present name (names unique, the
collection invariant) it removes exactly that one entry, all other entries
kept in order, and emits a notification whose ordered name tuple excludes
the removed name. -/
theorem remove_configuration_spec (cm : FitConfigurationsModel)
    (name : String) :
    (name ∉ cm.configuration_names →
      cm.remove_configuration name = (cm, none)) ∧
    (name ∈ cm.configuration_names → cm.configuration_names.Nodup →
      ∃ cm', cm.remove_configuration name = (cm', some cm'.configuration_names) ∧
        cm'.configuration_names = cm.configuration_names.erase name ∧
        name ∉ cm'.configuration_names ∧
        cm'.configuration_names.Sublist cm.configuration_names ∧
        cm'.fitConfigurations.length + 1 = cm.fitConfigurations.length) := by
  obtain ⟨l⟩ := cm
  constructor
  · intro h
    simp [FitConfigurationsModel.remove_configuration, namesIndexOf_eq_none h]
  · exact remove_present_aux l name

/-- C7 witness: the theorem applied at the concrete absent name `"L9"` and
the concrete present name `"L1"` of the sample collection. -/
theorem remove_configuration_spec_witness :
    (sampleConfigsModel.remove_configuration "L9" = (sampleConfigsModel, none)) ∧
    (∃ cm', sampleConfigsModel.remove_configuration "L1" =
        (cm', some cm'.configuration_names) ∧
      cm'.configuration_names =
        sampleConfigsModel.configuration_names.erase "L1" ∧
      "L1" ∉ cm'.configuration_names ∧
      cm'.configuration_names.Sublist sampleConfigsModel.configuration_names ∧
      cm'.fitConfigurations.length + 1 =
        sampleConfigsModel.fitConfigurations.length) :=
  ⟨(remove_configuration_spec sampleConfigsModel "L9").1 (by decide),
   (remove_configuration_spec sampleConfigsModel "L1").2 (by decide) (by decide)⟩

/-- C8: for every state of the configuration set (whose invariant keeps
`"No Fit"` out of the names), `add_configuration("No Fit", ...)` fails with
the reserved-name validation error and `add_configuration` on an
already-present name fails with the duplicate-name error — both realized as
`AssertionError` at distinct assert sites and classified by the spec's §7
taxonomy — and in both failure cases the collection is unchanged and no
notification is emitted. -/
theorem add_configuration_reserved_duplicate (reg : Registry)
    (cm : FitConfigurationsModel) (model : String) (estimator : Option String)
    (customParameters : Option Parameters) :
    (("No Fit" : String) ∉ cm.configuration_names →
      cm.add_configuration reg "No Fit" model estimator customParameters =
        (.error .reservedConfigNameOnAdd, cm, none) ∧
      FitError.isValidationError .reservedConfigNameOnAdd = true ∧
      FitError.pythonClass .reservedConfigNameOnAdd = "AssertionError") ∧
    (∀ name, name ∈ cm.configuration_names →
      cm.add_configuration reg name model estimator customParameters =
        (.error (.duplicateConfigName name), cm, none) ∧
      FitError.isDuplicateNameError (.duplicateConfigName name) = true ∧
      FitError.pythonClass (.duplicateConfigName name) = "AssertionError") := by
  constructor
  · intro h
    refine ⟨?_, rfl, rfl⟩
    simp [FitConfigurationsModel.add_configuration, h]
  · intro name h
    refine ⟨?_, rfl, rfl⟩
    simp [FitConfigurationsModel.add_configuration, h]

/-- C8 witness: the theorem applied to the sample collection, with the
reserved name `"No Fit"` and the present name `"L1"`. -/
theorem add_configuration_reserved_duplicate_witness :
    (sampleConfigsModel.add_configuration sampleRegistry "No Fit"
        "LinearModel" none none =
      (.error .reservedConfigNameOnAdd, sampleConfigsModel, none) ∧
      FitError.isValidationError .reservedConfigNameOnAdd = true ∧
      FitError.pythonClass .reservedConfigNameOnAdd = "AssertionError") ∧
    (sampleConfigsModel.add_configuration sampleRegistry "L1"
        "LinearModel" none none =
      (.error (.duplicateConfigName "L1"), sampleConfigsModel, none) ∧
      FitError.isDuplicateNameError (.duplicateConfigName "L1") = true ∧
      FitError.pythonClass (.duplicateConfigName "L1") = "AssertionError") :=
  ⟨(add_configuration_reserved_duplicate sampleRegistry sampleConfigsModel
      "LinearModel" none none).1 (by decide),
   (add_configuration_reserved_duplicate sampleRegistry sampleConfigsModel
      "LinearModel" none none).2 "L1" (by decide)⟩

/-- C9: `formatted_result(None, units)` is the empty string; for a non-null
result each parameter's reported error is its stderr exactly when the
parameter was allowed to vary, is the NaN sentinel when it varies but its
stderr is unreported, and is absent (`None`) when the parameter is fixed;
the rendered table carries exactly these reported errors. -/
theorem formatted_result_spec :
    (∀ units : List (String × String), formatted_result none units = "") ∧
    (∀ p : Param, p.vary = true → ∀ v, p.stderr = some v →
      reported_error p = some v) ∧
    (∀ p : Param, p.vary = true → p.stderr = none →
      reported_error p = some .nan) ∧
    (∀ p : Param, p.vary = false → reported_error p = none) ∧
    (∀ (params : Parameters) (units : List (String × String)),
      (parameters_to_format params units).map (fun e => (e.1, e.2.error)) =
        params.map (fun np => (np.1, reported_error np.2))) := by
  refine ⟨fun _ => rfl, ?_, ?_, ?_, ?_⟩
  · intro p hv v hs
    simp [reported_error, hv, hs]
  · intro p hv hs
    simp [reported_error, hv, hs]
  · intro p hv
    simp [reported_error, hv]
  · intro params units
    simp [parameters_to_format]

/-- A varying parameter with a reported stderr. -/
def varyingParam : Param :=
  { vary := true, value := 1, min := 0, max := 2, stderr := some (.val 1) }

/-- A varying parameter whose stderr was not reported by the solver. -/
def varyingParamNoStderr : Param :=
  { vary := true, value := 1, min := 0, max := 2, stderr := none }

/-- A fixed (non-varying) parameter. -/
def fixedParam : Param :=
  { vary := false, value := 1, min := 0, max := 2, stderr := some (.val 1) }

/-- C9 witness: the theorem applied at the empty unit table and at three
concrete parameters — varying with stderr, varying without stderr, fixed. -/
theorem formatted_result_spec_witness :
    formatted_result none [] = "" ∧
    reported_error varyingParam = some (.val 1) ∧
    reported_error varyingParamNoStderr = some .nan ∧
    reported_error fixedParam = none :=
  ⟨formatted_result_spec.1 [],
   formatted_result_spec.2.1 varyingParam rfl _ rfl,
   formatted_result_spec.2.2.1 varyingParamNoStderr rfl rfl,
   formatted_result_spec.2.2.2.1 fixedParam rfl⟩

/-- C10 (implicit frame effect): when the `custom_parameters` entry of the
mapping passed to `from_dict` is a string, the call replaces that entry of
the caller's mapping in place with the parsed parameter object — the
argument dict is not left unchanged. -/
theorem from_dict_mutates_argument (reg : Registry) (d : ConfigDict)
    (s : SerializedParams) (h : d.custom_parameters = .str s) :
    (FitConfiguration.from_dict reg d).1 =
      { d with custom_parameters := .params (Parameters.loads s) } ∧
    (FitConfiguration.from_dict reg d).1 ≠ d := by
  have h1 : (FitConfiguration.from_dict reg d).1 =
      { d with custom_parameters := .params (Parameters.loads s) } := by
    simp [FitConfiguration.from_dict, h]
  refine ⟨h1, fun hc => ?_⟩
  have h2 : (FitConfiguration.from_dict reg d).1.custom_parameters =
      CPVal.params (Parameters.loads s) := by rw [h1]
  rw [hc, h] at h2
  exact CPVal.noConfusion h2

/-- The serialized dict representation of the sample configuration `"L2"`,
whose `custom_parameters` entry is a string. -/
def sampleDict : ConfigDict := sampleConfig2.to_dict

/-- The serialized override table stored inside `sampleDict`. -/
def sampleSerialized : SerializedParams :=
  Parameters.dumps [("slope", sampleParam2)]

/-- The state of `sampleDict` after `from_dict` has mutated it in place. -/
def sampleDictMutated : ConfigDict :=
  { sampleDict with custom_parameters := .params (Parameters.loads sampleSerialized) }

/-- C10 witness: the theorem applied to the concrete serialized dict of the
sample configuration `"L2"`. -/
theorem from_dict_mutates_argument_witness :
    (FitConfiguration.from_dict sampleRegistry sampleDict).1 =
      sampleDictMutated ∧
    (FitConfiguration.from_dict sampleRegistry sampleDict).1 ≠ sampleDict :=
  from_dict_mutates_argument sampleRegistry sampleDict sampleSerialized rfl

end Datafitting
